import Mathlib

/-!
# SdlMain: a shallow embedding of `sdl_main.hpp` and `main.cc`

`SdlMain` confines every SDL call to one worker thread that runs an asio
`io_context`.  The embedding is state passing:

* the private members of `class SdlMain` are fields of the record `SdlMain`;
* what the program does to SDL and to the `io_context` is recorded in
  further fields of the same record (event queue, polled events, destroyed
  windows, `SDL_Quit` calls, timer waits, handler queue, stop request);
* every member function is a Lean function on that record; a coroutine is
  run from one suspension point to the next, and what arrives while it is
  suspended is an explicit argument.

SDL and asio are external libraries.  The two event-type constants the
source compares against are parameters (`SdlConsts`); what `SDL_InitSubSystem`
and `SDL_RegisterEvents` answer is read from the record.  Event types are
`Uint32` in the source and are only compared for equality, so they are `Nat`
here.  Time points are `Nat` counts of nanoseconds; the 64-bit range of
`steady_clock` (about 292 years) is not modelled.
-/

namespace SdlMainModel

/-! ## Data model -/

/-- The two members of `SDL_Event` the source reads: `event.type` and
`event.window.windowID`. -/
structure SDL_Event where
  type : Nat
  windowID : Nat
deriving DecidableEq, Repr

/-- The SDL event-type constants used by `sdlEventLoop`; their values come
from SDL's headers, which are not part of the repository. -/
structure SdlConsts where
  SDL_EVENT_QUIT : Nat
  SDL_EVENT_WINDOW_CLOSE_REQUESTED : Nat
deriving DecidableEq, Repr

/-- The values of the two constants in SDL 3 (`SDL_events.h`). -/
def sdl3 : SdlConsts :=
  { SDL_EVENT_QUIT := 0x100, SDL_EVENT_WINDOW_CLOSE_REQUESTED := 0x210 }

/-- The two coroutines `initialize` hands to `co_spawn`. -/
inductive Coroutine where
  | sdlEventLoop
  | periodicTask
deriving DecidableEq, Repr

/-- A `std::function<void()>` given to `scheduleTask`: the closure of
`quit()` (lines 79-83; `junk` is the content of the members of the local
`SDL_Event` the closure leaves unset), or a closure of the caller, named by
a value of `α`. -/
inductive Closure (α : Type) where
  | pushCustomEvent (junk : Nat)
  | user (a : α)
deriving DecidableEq, Repr

/-- A handler waiting in `io_context_`: the closure posted by `initialize`
(lines 37-61) or the coroutine frame `scheduleTask` spawned around a
closure (lines 72-75). -/
inductive Handler (α : Type) where
  | initClosure
  | task (c : Closure α)
deriving DecidableEq, Repr

/-- The state of the singleton, of its `io_context_` and of SDL. -/
structure SdlMain (α : Type) where
  /-- `std::atomic<bool> running_` -/
  running_ : Bool
  /-- `bool sdl_initialized_` -/
  sdl_initialized_ : Bool
  /-- `Uint32 custom_event_type_` -/
  custom_event_type_ : Nat
  /-- `io_context_.stop()` has been called -/
  stopped : Bool
  /-- handlers queued in `io_context_`, oldest first -/
  ready : List (Handler α)
  /-- coroutines handed to `co_spawn` by the init closure, in order -/
  spawned : List Coroutine
  /-- closures whose `task()` call (line 74) has been made, in order -/
  executed : List (Closure α)
  /-- what `SDL_InitSubSystem(SDL_INIT_VIDEO)` returns -/
  initResult : Bool
  /-- what `SDL_RegisterEvents(1)` returns -/
  registerResult : Nat
  /-- the SDL event queue, oldest first -/
  events : List SDL_Event
  /-- events `SDL_PollEvent` has handed out, in order -/
  polled : List SDL_Event
  /-- window ids whose window was passed to `SDL_DestroyWindow`, in order -/
  destroyed : List Nat
  /-- number of `SDL_Quit()` calls -/
  quitCalls : Nat
  /-- number of 10 ms timer waits `sdlEventLoop` has started -/
  waits : Nat
  /-- indices of `window[]` that `main`'s closures filled with a window -/
  created : List Nat

variable {α : Type}

/-! ## `sdlEventLoop` (lines 110-128) -/

/-- The inner loop `while (SDL_PollEvent(&event))` (lines 113-124), run on the
pending events `l` (the content of the queue).  The `Bool` is `true` when the
loop left through `co_return` (line 117).  `SDL_PollEvent` returns `false` on
an empty queue, which the first case records. -/
def pollLoop (c : SdlConsts) : List SDL_Event → SdlMain α → Bool × SdlMain α
  | [], s => (false, { s with events := [] })
  | e :: rest, s =>
    let s1 := { s with events := rest, polled := s.polled ++ [e] }
    if e.type = s1.custom_event_type_ ∨ e.type = c.SDL_EVENT_QUIT then
      (true, { s1 with running_ := false, stopped := true })
    else if e.type = c.SDL_EVENT_WINDOW_CLOSE_REQUESTED then
      pollLoop c rest { s1 with destroyed := s1.destroyed ++ [e.windowID] }
    else
      pollLoop c rest s1

/-- One drain of the event queue. -/
def drain (c : SdlConsts) (s : SdlMain α) : Bool × SdlMain α :=
  pollLoop c s.events s

/-- Where a run of `sdlEventLoop` stands. -/
inductive Pump (α : Type) where
  /-- left through `co_return` (line 117) -/
  | returned (s : SdlMain α)
  /-- the test `while (running_)` failed and `SDL_Quit()` (line 127) ran -/
  | finished (s : SdlMain α)
  /-- suspended in the 10 ms wait (line 125) -/
  | waiting (s : SdlMain α)

/-- The state a run stands in. -/
def Pump.state : Pump α → SdlMain α
  | .returned s => s
  | .finished s => s
  | .waiting s => s

/-- Whether the coroutine has ended. -/
def Pump.ended : Pump α → Bool
  | .returned _ => true
  | .finished _ => true
  | .waiting _ => false

/-- From the test of the outer loop (line 112) to the next suspension or to
the end of the coroutine. -/
def pumpIter (c : SdlConsts) (s : SdlMain α) : Pump α :=
  if s.running_ then
    match drain c s with
    | (true, s1) => .returned s1
    | (false, s1) => .waiting { s1 with waits := s1.waits + 1 }
  else
    .finished { s with quitCalls := s.quitCalls + 1 }

/-- The coroutine `sdlEventLoop` entered in state `s`; `arrivals` lists, for
each 10 ms wait that completes, the events that entered the queue during
it.  When `arrivals` is used up the coroutine is left suspended. -/
def sdlEventLoop (c : SdlConsts) : List (List SDL_Event) → SdlMain α → Pump α
  | [], s => pumpIter c s
  | a :: more, s =>
    match pumpIter c s with
    | .waiting s1 => sdlEventLoop c more { s1 with events := s1.events ++ a }
    | r => r

/-- Window ids named by the close events of `l`, in order. -/
def closeIds (c : SdlConsts) (l : List SDL_Event) : List Nat :=
  (l.filter (fun e => decide (e.type = c.SDL_EVENT_WINDOW_CLOSE_REQUESTED))).map
    SDL_Event.windowID

/-! ## `initialize`, `scheduleTask`, `quit` and the executor -/

/-- The closure `initialize` posts to the strand (lines 37-61). -/
def initClosure (s : SdlMain α) : SdlMain α :=
  if s.initResult then
    { s with
      sdl_initialized_ := true
      custom_event_type_ := s.registerResult
      spawned := s.spawned ++ [Coroutine.sdlEventLoop, Coroutine.periodicTask] }
  else
    { s with sdl_initialized_ := false, running_ := false }

/-- `scheduleTask` (lines 71-76): the coroutine around `task` is queued in
`io_context_`; nothing else is read or written. -/
def scheduleTask (task : Closure α) (s : SdlMain α) : SdlMain α :=
  { s with ready := s.ready ++ [Handler.task task] }

/-- `quit` (lines 78-84). -/
def quit (junk : Nat) (s : SdlMain α) : SdlMain α :=
  scheduleTask (Closure.pushCustomEvent junk) s

/-- The call `task()` of line 74.  `interp` gives the body of the caller's
closures. -/
def runClosure (interp : α → SdlMain α → SdlMain α) : Closure α → SdlMain α → SdlMain α
  | .pushCustomEvent junk, s =>
    { s with events := s.events ++ [{ type := s.custom_event_type_, windowID := junk }] }
  | .user a, s => interp a s

/-- One handler run by the worker thread. -/
def runHandler (interp : α → SdlMain α → SdlMain α) : Handler α → SdlMain α → SdlMain α
  | .initClosure, s => initClosure s
  | .task c, s => runClosure interp c { s with executed := s.executed ++ [c] }

/-- One turn of `io_context_.run()` (line 91): once `stop()` was called no
handler is taken from the queue; otherwise the oldest handler runs. -/
def ioRunOne (interp : α → SdlMain α → SdlMain α) (s : SdlMain α) : SdlMain α :=
  if s.stopped then s
  else
    match s.ready with
    | [] => s
    | h :: rest => runHandler interp h { s with ready := rest }

/-- The worker thread takes `n` turns. -/
def ioRun (interp : α → SdlMain α → SdlMain α) : Nat → SdlMain α → SdlMain α
  | 0, s => s
  | n + 1, s => ioRun interp n (ioRunOne interp s)

/-- `scheduleTask` called once for each closure of `ts`, in order. -/
def scheduleAll (ts : List (Closure α)) (s : SdlMain α) : SdlMain α :=
  ts.foldl (fun u t => scheduleTask t u) s

/-- The closures whose `task()` call running the handlers `hs` makes, in
order. -/
def handlerTasks : List (Handler α) → List (Closure α)
  | [] => []
  | Handler.initClosure :: hs => handlerTasks hs
  | Handler.task c :: hs => c :: handlerTasks hs

/-- The caller's closures reach the singleton through its public member
functions only (its members are private): they cannot call
`io_context_.stop()`, they do not touch the record of the `task()` calls, and
to the handler queue they can only append (`scheduleTask`, `quit`,
`initialize`). -/
def PublicOnly (interp : α → SdlMain α → SdlMain α) : Prop :=
  ∀ a u, (interp a u).stopped = u.stopped ∧ (interp a u).executed = u.executed ∧
    ∃ extra, (interp a u).ready = u.ready ++ extra

/-- The predicate of the `wait_for` of line 65. -/
def initPredicate (s : SdlMain α) : Bool :=
  s.sdl_initialized_ || !s.running_

/-- What the caller does when `wait_for` has returned (lines 65-68):
`wait_for` returns the value of the predicate, and the body of the `if` runs
when that value is `false`. -/
def gateStep (s : SdlMain α) : SdlMain α :=
  if !initPredicate s then { s with running_ := false } else s

/-- The member function `initialize()` (lines 33-69); the trailing underscore
keeps the name clear of the Lean keyword.  `workerTurns` is the number of handlers the
worker thread has run when the caller's `wait_for` returns. -/
def initialize_ (interp : α → SdlMain α → SdlMain α) (workerTurns : Nat)
    (s : SdlMain α) : SdlMain α :=
  let s1 := { s with running_ := true }
  let s2 := { s1 with ready := s1.ready ++ [Handler.initClosure] }
  gateStep (ioRun interp workerTurns s2)

/-! ## `periodicTask` (lines 130-138) -/

/-- `std::chrono::seconds(n)` in ticks of `steady_clock` (nanoseconds). -/
def seconds (n : Nat) : Nat := n * 1000000000

/-- The frame of the coroutine `periodicTask`. -/
structure PeriodicTask where
  /-- `timer->expiry()` -/
  expiry : Nat
  /-- lines written by line 135 -/
  prints : Nat
  /-- suspended in `async_wait` (`true`) or ended (`false`) -/
  live : Bool
deriving DecidableEq, Repr

/-- Entering `periodicTask` at time `start` (line 131 and the first test of
line 132). -/
def periodicTask_begin (start : Nat) (running : Bool) : PeriodicTask :=
  { expiry := start + seconds 2, prints := 0, live := running }

/-- The timer fired and the coroutine was resumed at time `handledAt` with
`running_` reading `running` (lines 134-136, then the test of line 132). -/
def periodicTask_resume (_handledAt : Nat) (running : Bool) (p : PeriodicTask) :
    PeriodicTask :=
  if !p.live then p
  else if !running then { p with live := false }
  else { expiry := p.expiry + seconds 2, prints := p.prints + 1, live := running }

/-- `periodicTask` entered at `start` with `running_ = running0`, then resumed
once for each element of `fires` (time of the resumption, value of
`running_`). -/
def periodicTask (start : Nat) (running0 : Bool) (fires : List (Nat × Bool)) : PeriodicTask :=
  fires.foldl (fun p f => periodicTask_resume f.1 f.2 p) (periodicTask_begin start running0)

/-! ## `main.cc` -/

/-- The closure `main` schedules for `window[i]` (lines 26-48): `createOk i`
is whether `SDL_CreateWindow` returned a window. -/
def mainClosure (createOk : Nat → Bool) (i : Nat) (s : SdlMain Nat) : SdlMain Nat :=
  if createOk i then { s with created := s.created ++ [i] } else quit 0 s

/-- `main` (lines 21-49): `initialize`, then three `scheduleTask` calls. -/
def main (createOk : Nat → Bool) (workerTurns : Nat) (s : SdlMain Nat) : SdlMain Nat :=
  scheduleTask (Closure.user 2)
    (scheduleTask (Closure.user 1)
      (scheduleTask (Closure.user 0)
        (initialize_ (mainClosure createOk) workerTurns s)))

/-- The state before `main` runs: members as initialised at lines 103-108,
nothing queued, SDL untouched; `initOk` and `token` are what SDL will answer. -/
def fresh (α : Type) (initOk : Bool) (token : Nat) : SdlMain α :=
  { running_ := false, sdl_initialized_ := false, custom_event_type_ := 0,
    stopped := false, ready := [], spawned := [], executed := [],
    initResult := initOk, registerResult := token,
    events := [], polled := [], destroyed := [], quitCalls := 0, waits := 0,
    created := [] }

/-- The test of line 114 for an event `e` when `custom_event_type_ = tok`. -/
abbrev stopsPump (c : SdlConsts) (tok : Nat) (e : SDL_Event) : Prop :=
  e.type = tok ∨ e.type = c.SDL_EVENT_QUIT

/-! ## Concrete states -/

/-- A state after a successful `initialize()`: running, SDL initialised,
custom event type `0x8000` (the first value `SDL_RegisterEvents` hands out),
and the event queue `evs`. -/
def pumping (evs : List SDL_Event) : SdlMain Nat :=
  { fresh Nat true 0x8000 with
    running_ := true, sdl_initialized_ := true, custom_event_type_ := 0x8000,
    spawned := [Coroutine.sdlEventLoop, Coroutine.periodicTask],
    events := evs }

/-- A mouse-motion event (`SDL_EVENT_MOUSE_MOTION = 0x400`). -/
def evMotion : SDL_Event := { type := 0x400, windowID := 1 }

/-- A close request for window `w`. -/
def evClose (w : Nat) : SDL_Event := { type := 0x210, windowID := w }

/-- The event `SDL_EVENT_QUIT`. -/
def evQuit : SDL_Event := { type := 0x100, windowID := 0 }

/-- The custom event of `pumping`, as `quit()` pushes it. -/
def evCustom : SDL_Event := { type := 0x8000, windowID := 0 }

/-! ## Helper lemmas on the inner loop -/

theorem closeIds_nil (c : SdlConsts) : closeIds c [] = [] := rfl

theorem closeIds_cons (c : SdlConsts) (e : SDL_Event) (l : List SDL_Event) :
    closeIds c (e :: l) =
      if e.type = c.SDL_EVENT_WINDOW_CLOSE_REQUESTED then e.windowID :: closeIds c l
      else closeIds c l := by
  unfold closeIds
  by_cases h : e.type = c.SDL_EVENT_WINDOW_CLOSE_REQUESTED <;> simp [List.filter_cons, h]

theorem closeIds_append (c : SdlConsts) (l m : List SDL_Event) :
    closeIds c (l ++ m) = closeIds c l ++ closeIds c m := by
  simp [closeIds]

/-- A drain that meets no stopping event hands out every pending event,
destroys the windows named by the close events and changes nothing else. -/
theorem pollLoop_no_stop (c : SdlConsts) (l : List SDL_Event) (s : SdlMain α)
    (h : ∀ e ∈ l, ¬ stopsPump c s.custom_event_type_ e) :
    pollLoop c l s =
      (false, { s with events := [], polled := s.polled ++ l,
                       destroyed := s.destroyed ++ closeIds c l }) := by
  induction l generalizing s with
  | nil => simp [pollLoop, closeIds_nil]
  | cons e rest ih =>
    have he : ¬ (e.type = s.custom_event_type_ ∨ e.type = c.SDL_EVENT_QUIT) :=
      h e (List.mem_cons_self _ _)
    have hr : ∀ x ∈ rest, ¬ stopsPump c s.custom_event_type_ x :=
      fun x hx => h x (List.mem_cons_of_mem _ hx)
    by_cases hc : e.type = c.SDL_EVENT_WINDOW_CLOSE_REQUESTED
    · rw [pollLoop]
      rw [if_neg he, if_pos hc]
      rw [ih _ (by simpa using hr)]
      simp [closeIds_cons, hc]
    · rw [pollLoop]
      rw [if_neg he, if_neg hc]
      rw [ih _ (by simpa using hr)]
      simp [closeIds_cons, hc]

/-- A drain that meets a stopping event hands out the events up to and
including the first one, destroys the windows named by the close events
before it, clears `running_`, requests the stop and returns. -/
theorem pollLoop_stop (c : SdlConsts) (pre post : List SDL_Event) (e : SDL_Event)
    (s : SdlMain α)
    (hpre : ∀ x ∈ pre, ¬ stopsPump c s.custom_event_type_ x)
    (he : stopsPump c s.custom_event_type_ e) :
    pollLoop c (pre ++ e :: post) s =
      (true, { s with events := post, polled := s.polled ++ (pre ++ [e]),
                      destroyed := s.destroyed ++ closeIds c pre,
                      running_ := false, stopped := true }) := by
  induction pre generalizing s with
  | nil =>
    have he1 : e.type = s.custom_event_type_ ∨ e.type = c.SDL_EVENT_QUIT := he
    rw [List.nil_append, pollLoop]
    simp [he1, closeIds_nil]
  | cons x rest ih =>
    have hx : ¬ (x.type = s.custom_event_type_ ∨ x.type = c.SDL_EVENT_QUIT) :=
      hpre x (List.mem_cons_self _ _)
    have hr : ∀ y ∈ rest, ¬ stopsPump c s.custom_event_type_ y :=
      fun y hy => hpre y (List.mem_cons_of_mem _ hy)
    by_cases hc : x.type = c.SDL_EVENT_WINDOW_CLOSE_REQUESTED
    · rw [List.cons_append, pollLoop]
      rw [if_neg hx, if_pos hc]
      rw [ih _ (by simpa using hr) (by simpa using he)]
      simp [closeIds_cons, hc]
    · rw [List.cons_append, pollLoop]
      rw [if_neg hx, if_neg hc]
      rw [ih _ (by simpa using hr) (by simpa using he)]
      simp [closeIds_cons, hc]

/-- A list holding an element with a decidable property splits at the first
such element. -/
theorem split_at_first {β : Type} (P : β → Prop) [DecidablePred P] (l : List β)
    (h : ∃ x ∈ l, P x) :
    ∃ pre x post, l = pre ++ x :: post ∧ (∀ y ∈ pre, ¬ P y) ∧ P x := by
  induction l with
  | nil => simp at h
  | cons a rest ih =>
    by_cases ha : P a
    · exact ⟨[], a, rest, rfl, by simp, ha⟩
    · have h2 : ∃ x ∈ rest, P x := by
        obtain ⟨x, hx, hp⟩ := h
        rcases List.mem_cons.mp hx with rfl | hx
        · exact absurd hp ha
        · exact ⟨x, hx, hp⟩
      obtain ⟨pre, x, post, hl, hpre, hx⟩ := ih h2
      refine ⟨a :: pre, x, post, by simp [hl], ?_, hx⟩
      intro y hy
      rcases List.mem_cons.mp hy with rfl | hy
      · exact ha
      · exact hpre y hy

/-! ## Helper lemmas on the outer loop -/

theorem pumpIter_no_stop (c : SdlConsts) (s : SdlMain α) (hrun : s.running_ = true)
    (h : ∀ e ∈ s.events, ¬ stopsPump c s.custom_event_type_ e) :
    pumpIter c s =
      Pump.waiting { s with events := [], polled := s.polled ++ s.events,
                            destroyed := s.destroyed ++ closeIds c s.events,
                            waits := s.waits + 1 } := by
  simp [pumpIter, drain, hrun, pollLoop_no_stop c s.events s h]

theorem pumpIter_stop (c : SdlConsts) (s : SdlMain α) (pre post : List SDL_Event)
    (e : SDL_Event) (hrun : s.running_ = true) (hq : s.events = pre ++ e :: post)
    (hpre : ∀ x ∈ pre, ¬ stopsPump c s.custom_event_type_ x)
    (he : stopsPump c s.custom_event_type_ e) :
    pumpIter c s =
      Pump.returned { s with events := post, polled := s.polled ++ (pre ++ [e]),
                             destroyed := s.destroyed ++ closeIds c pre,
                             running_ := false, stopped := true } := by
  simp [pumpIter, drain, hrun, hq, pollLoop_stop c pre post e s hpre he]

theorem pumpIter_not_running (c : SdlConsts) (s : SdlMain α) (hrun : s.running_ = false) :
    pumpIter c s = Pump.finished { s with quitCalls := s.quitCalls + 1 } := by
  simp [pumpIter, hrun]

theorem sdlEventLoop_of_returned (c : SdlConsts) (arrivals : List (List SDL_Event))
    (s s1 : SdlMain α) (h : pumpIter c s = Pump.returned s1) :
    sdlEventLoop c arrivals s = Pump.returned s1 := by
  cases arrivals with
  | nil => simpa [sdlEventLoop] using h
  | cons a more => simp [sdlEventLoop, h]

theorem sdlEventLoop_of_finished (c : SdlConsts) (arrivals : List (List SDL_Event))
    (s s1 : SdlMain α) (h : pumpIter c s = Pump.finished s1) :
    sdlEventLoop c arrivals s = Pump.finished s1 := by
  cases arrivals with
  | nil => simpa [sdlEventLoop] using h
  | cons a more => simp [sdlEventLoop, h]

theorem sdlEventLoop_of_waiting (c : SdlConsts) (a : List SDL_Event)
    (more : List (List SDL_Event)) (s s1 : SdlMain α) (h : pumpIter c s = Pump.waiting s1) :
    sdlEventLoop c (a :: more) s = sdlEventLoop c more { s1 with events := s1.events ++ a } := by
  simp [sdlEventLoop, h]

/-- A run in which no stopping event ever arrives drains every batch, is left
suspended, and has written neither `running_` nor the stop request. -/
theorem sdlEventLoop_no_stop (c : SdlConsts) (arrivals : List (List SDL_Event))
    (s : SdlMain α) (hrun : s.running_ = true)
    (h : ∀ e ∈ s.events ++ arrivals.flatten, ¬ stopsPump c s.custom_event_type_ e) :
    sdlEventLoop c arrivals s =
      Pump.waiting { s with events := [],
                            polled := s.polled ++ (s.events ++ arrivals.flatten),
                            destroyed := s.destroyed ++ closeIds c (s.events ++ arrivals.flatten),
                            waits := s.waits + (arrivals.length + 1) } := by
  induction arrivals generalizing s with
  | nil =>
    have h0 : ∀ e ∈ s.events, ¬ stopsPump c s.custom_event_type_ e := by
      intro e he; exact h e (by simp [he])
    simp [sdlEventLoop, pumpIter_no_stop c s hrun h0]
  | cons a more ih =>
    have h0 : ∀ e ∈ s.events, ¬ stopsPump c s.custom_event_type_ e := by
      intro e he; exact h e (by simp [he])
    rw [sdlEventLoop_of_waiting c a more s _ (pumpIter_no_stop c s hrun h0)]
    rw [ih _ (by simpa using hrun)]
    · simp [closeIds_append, List.append_assoc, Nat.add_assoc, Nat.add_comm 1]
    · intro e he
      simp only [List.nil_append] at he
      exact h e (by
        rcases List.mem_append.mp he with h1 | h1
        · simp [h1]
        · simp [h1])

/-- A run that meets a stopping event in the batch after `before` returns
there: it has handed out the events up to and including that event and
started one wait per earlier batch; what follows is never looked at. -/
theorem sdlEventLoop_stop (c : SdlConsts) (before : List (List SDL_Event))
    (pre post : List SDL_Event) (e : SDL_Event) (later arrivals : List (List SDL_Event))
    (s : SdlMain α) (hrun : s.running_ = true)
    (hb : s.events :: arrivals = before ++ (pre ++ e :: post) :: later)
    (hbefore : ∀ x ∈ before.flatten, ¬ stopsPump c s.custom_event_type_ x)
    (hpre : ∀ x ∈ pre, ¬ stopsPump c s.custom_event_type_ x)
    (he : stopsPump c s.custom_event_type_ e) :
    sdlEventLoop c arrivals s =
      Pump.returned { s with events := post,
                             polled := s.polled ++ (before.flatten ++ (pre ++ [e])),
                             destroyed := s.destroyed ++ closeIds c (before.flatten ++ pre),
                             waits := s.waits + before.length,
                             running_ := false, stopped := true } := by
  induction before generalizing s arrivals with
  | nil =>
    simp only [List.nil_append, List.cons.injEq] at hb
    rw [sdlEventLoop_of_returned c arrivals s _ (pumpIter_stop c s pre post e hrun hb.1 hpre he)]
    simp
  | cons b rest ih =>
    simp only [List.cons_append, List.cons.injEq] at hb
    obtain ⟨hev, harr⟩ := hb
    have h0 : ∀ x ∈ s.events, ¬ stopsPump c s.custom_event_type_ x := by
      intro x hx; exact hbefore x (by simp [← hev, hx])
    have hrest : ∀ x ∈ rest.flatten, ¬ stopsPump c s.custom_event_type_ x := by
      intro x hx
      exact hbefore x (by
        rw [List.flatten_cons]
        exact List.mem_append_right _ hx)
    cases arrivals with
    | nil => cases rest <;> simp at harr
    | cons a more =>
      rw [sdlEventLoop_of_waiting c a more s _ (pumpIter_no_stop c s hrun h0)]
      rw [ih more _ (by simpa using hrun) (by simpa using harr) (by simpa using hrest)
        (by simpa using hpre) (by simpa using he)]
      simp [closeIds_append, List.append_assoc, hev, Nat.add_assoc, Nat.add_comm 1]

/-- Batches of which one holds an element with a decidable property split at
the first such element. -/
theorem split_batches {β : Type} (P : β → Prop) [DecidablePred P] (L : List (List β))
    (h : ∃ x ∈ L.flatten, P x) :
    ∃ before pre x post later, L = before ++ (pre ++ x :: post) :: later ∧
      (∀ y ∈ before.flatten, ¬ P y) ∧ (∀ y ∈ pre, ¬ P y) ∧ P x := by
  induction L with
  | nil => simp at h
  | cons b rest ih =>
    by_cases hb : ∃ x ∈ b, P x
    · obtain ⟨pre, x, post, hl, hpre, hx⟩ := split_at_first P b hb
      exact ⟨[], pre, x, post, rest, by simp [hl], by simp, hpre, hx⟩
    · have hb2 : ∀ y ∈ b, ¬ P y := fun y hy hp => hb ⟨y, hy, hp⟩
      have h2 : ∃ x ∈ rest.flatten, P x := by
        obtain ⟨x, hx, hp⟩ := h
        rw [List.flatten_cons] at hx
        rcases List.mem_append.mp hx with hx | hx
        · exact absurd hp (hb2 x hx)
        · exact ⟨x, hx, hp⟩
      obtain ⟨before, pre, x, post, later, hl, hbef, hpre, hx⟩ := ih h2
      refine ⟨b :: before, pre, x, post, later, by simp [hl], ?_, hpre, hx⟩
      intro y hy
      rw [List.flatten_cons] at hy
      rcases List.mem_append.mp hy with hy | hy
      · exact hb2 y hy
      · exact hbef y hy

/-- A run to which a stopping event arrives ends through `co_return` with
`running_` cleared and the stop requested. -/
theorem sdlEventLoop_some_stop (c : SdlConsts) (arrivals : List (List SDL_Event))
    (s : SdlMain α) (hrun : s.running_ = true)
    (h : ∃ e ∈ s.events ++ arrivals.flatten, stopsPump c s.custom_event_type_ e) :
    ∃ s1, sdlEventLoop c arrivals s = Pump.returned s1 ∧ s1.running_ = false ∧
      s1.stopped = true ∧ s1.quitCalls = s.quitCalls := by
  have h2 : ∃ e ∈ (s.events :: arrivals).flatten, stopsPump c s.custom_event_type_ e := by
    simpa [List.flatten_cons] using h
  obtain ⟨before, pre, x, post, later, hl, hbef, hpre, hx⟩ :=
    split_batches (stopsPump c s.custom_event_type_) (s.events :: arrivals) h2
  exact ⟨_, sdlEventLoop_stop c before pre post x later arrivals s hrun hl hbef hpre hx,
    rfl, rfl, rfl⟩

/-! ## The claims on `sdlEventLoop` -/

/-- C1: for every finite sequence of pending events drained by `sdlEventLoop`
entered with `running_ = true` (the queue at entry followed by the arrivals
of the later waits), `running_` is cleared and the executor stop is requested
if and only if the sequence holds an event whose type is the custom token or
`SDL_EVENT_QUIT`; without such an event `running_` stays `true` and the stop
request is left as it was, in particular when every event is a window-close
event whose type differs from the custom token or an event of another,
non-stopping type. -/
theorem sdlEventLoop_stops_iff_stop_event (c : SdlConsts)
    (arrivals : List (List SDL_Event)) (s : SdlMain α) (hrun : s.running_ = true) :
    (((sdlEventLoop c arrivals s).state.running_ = false ∧
        (sdlEventLoop c arrivals s).state.stopped = true) ↔
      ∃ e ∈ s.events ++ arrivals.flatten,
        e.type = s.custom_event_type_ ∨ e.type = c.SDL_EVENT_QUIT) ∧
    ((∀ e ∈ s.events ++ arrivals.flatten,
        ¬ (e.type = s.custom_event_type_ ∨ e.type = c.SDL_EVENT_QUIT)) →
      (sdlEventLoop c arrivals s).state.running_ = true ∧
      (sdlEventLoop c arrivals s).state.stopped = s.stopped) ∧
    (c.SDL_EVENT_WINDOW_CLOSE_REQUESTED ≠ c.SDL_EVENT_QUIT →
      (∀ e ∈ s.events ++ arrivals.flatten,
        (e.type = c.SDL_EVENT_WINDOW_CLOSE_REQUESTED ∧ e.type ≠ s.custom_event_type_) ∨
        (e.type ≠ s.custom_event_type_ ∧ e.type ≠ c.SDL_EVENT_QUIT)) →
      (sdlEventLoop c arrivals s).state.running_ = true ∧
      (sdlEventLoop c arrivals s).state.stopped = s.stopped) := by
  have key : (∀ e ∈ s.events ++ arrivals.flatten,
        ¬ (e.type = s.custom_event_type_ ∨ e.type = c.SDL_EVENT_QUIT)) →
      (sdlEventLoop c arrivals s).state.running_ = true ∧
      (sdlEventLoop c arrivals s).state.stopped = s.stopped := by
    intro h
    rw [sdlEventLoop_no_stop c arrivals s hrun h]
    exact ⟨hrun, rfl⟩
  refine ⟨⟨?_, ?_⟩, key, ?_⟩
  · intro hstop
    by_contra hne
    have hall : ∀ e ∈ s.events ++ arrivals.flatten,
        ¬ (e.type = s.custom_event_type_ ∨ e.type = c.SDL_EVENT_QUIT) :=
      fun e he hp => hne ⟨e, he, hp⟩
    have := (key hall).1
    rw [hstop.1] at this
    exact Bool.noConfusion this
  · intro h
    obtain ⟨s1, hs1, hr, hst, _⟩ := sdlEventLoop_some_stop c arrivals s hrun h
    rw [hs1]
    exact ⟨hr, hst⟩
  · intro hq hall
    apply key
    intro e he hp
    rcases hall e he with ⟨h1, h2⟩ | ⟨h1, h2⟩
    · rcases hp with hp | hp
      · exact h2 hp
      · exact hq (h1 ▸ hp)
    · rcases hp with hp | hp
      · exact h1 hp
      · exact h2 hp

theorem sdlEventLoop_stops_iff_stop_event_witness :
    (pumping [evClose 1, evMotion]).running_ = true ∧
    (sdlEventLoop sdl3 [[evClose 2], [evCustom, evClose 3]]
        (pumping [evClose 1, evMotion])).state.running_ = false ∧
    (sdlEventLoop sdl3 [[evClose 2], [evCustom, evClose 3]]
        (pumping [evClose 1, evMotion])).state.stopped = true :=
  ⟨rfl,
    (sdlEventLoop_stops_iff_stop_event sdl3 [[evClose 2], [evCustom, evClose 3]]
      (pumping [evClose 1, evMotion]) rfl).1.2 ⟨evCustom, by decide, Or.inl rfl⟩⟩

/-- C2: when the pending events hold a custom-token or `SDL_EVENT_QUIT` event
(in the batch that follows the fully drained batches `before`, after the
non-stopping events `pre`), `sdlEventLoop` entered with `running_ = true` ends
through `co_return` having handed out exactly the events up to and including
that event: the events `post` behind it stay in the queue, the later batches
are never looked at, only windows named by close events before it are
destroyed, and the only waits are the ones between the earlier batches. -/
theorem sdlEventLoop_ends_at_first_stop_event (c : SdlConsts)
    (before : List (List SDL_Event)) (pre post : List SDL_Event) (e : SDL_Event)
    (later arrivals : List (List SDL_Event)) (s : SdlMain α)
    (hrun : s.running_ = true)
    (hb : s.events :: arrivals = before ++ (pre ++ e :: post) :: later)
    (hbefore : ∀ x ∈ before.flatten,
      ¬ (x.type = s.custom_event_type_ ∨ x.type = c.SDL_EVENT_QUIT))
    (hpre : ∀ x ∈ pre, ¬ (x.type = s.custom_event_type_ ∨ x.type = c.SDL_EVENT_QUIT))
    (he : e.type = s.custom_event_type_ ∨ e.type = c.SDL_EVENT_QUIT) :
    sdlEventLoop c arrivals s =
      Pump.returned { s with events := post,
                             polled := s.polled ++ (before.flatten ++ (pre ++ [e])),
                             destroyed := s.destroyed ++
                               ((before.flatten ++ pre).filter (fun x =>
                                 decide (x.type = c.SDL_EVENT_WINDOW_CLOSE_REQUESTED))).map
                                   SDL_Event.windowID,
                             waits := s.waits + before.length,
                             running_ := false, stopped := true } ∧
    (sdlEventLoop c arrivals s).ended = true ∧
    (sdlEventLoop c arrivals s).state.polled = s.polled ++ (before.flatten ++ (pre ++ [e])) ∧
    (sdlEventLoop c arrivals s).state.events = post ∧
    (sdlEventLoop c arrivals s).state.waits = s.waits + before.length := by
  have h := sdlEventLoop_stop c before pre post e later arrivals s hrun hb hbefore hpre he
  rw [h]
  exact ⟨rfl, rfl, rfl, rfl, rfl⟩

theorem sdlEventLoop_ends_at_first_stop_event_witness :
    sdlEventLoop sdl3 [[evClose 2], [evClose 5]] (pumping [evClose 1, evQuit, evClose 3]) =
      Pump.returned { pumping [evClose 3] with
        polled := [evClose 1, evQuit], destroyed := [1], waits := 0,
        running_ := false, stopped := true } :=
  (sdlEventLoop_ends_at_first_stop_event sdl3 [] [evClose 1] [evClose 3] evQuit
    [[evClose 2], [evClose 5]] [[evClose 2], [evClose 5]]
    (pumping [evClose 1, evQuit, evClose 3]) rfl rfl (by simp) (by decide)
    (Or.inr rfl)).1

/-- C3 (the code at the failing input): entered with `running_ = true` and an
`SDL_EVENT_QUIT` event pending, `sdlEventLoop` ends through `co_return` with
`running_` cleared and no `SDL_Quit()` call made; entered with
`running_ = false` it makes the call once. -/
theorem sdlEventLoop_stop_event_exit_skips_SDL_Quit :
    sdlEventLoop sdl3 [] (pumping [evQuit]) =
      Pump.returned { pumping [] with
        polled := [evQuit], running_ := false, stopped := true } ∧
    (sdlEventLoop sdl3 [] (pumping [evQuit])).state.running_ = false ∧
    (sdlEventLoop sdl3 [] (pumping [evQuit])).state.quitCalls = 0 ∧
    (sdlEventLoop sdl3 [] (pumping [evCustom])).state.quitCalls = 0 ∧
    (sdlEventLoop sdl3 [] { pumping [] with running_ := false }).state.quitCalls = 1 :=
  ⟨rfl, rfl, rfl, rfl, rfl⟩

/-- C10: when no pending event is a custom-token or `SDL_EVENT_QUIT` event, one
drain hands out every pending event and empties the queue, calls
`SDL_DestroyWindow` for exactly the windows named by the
`SDL_EVENT_WINDOW_CLOSE_REQUESTED` events, once each and in queue order, does
not leave through `co_return` and makes no `SDL_Quit()` call; nothing else
changes. -/
theorem drain_without_stop_event (c : SdlConsts) (s : SdlMain α)
    (h : ∀ e ∈ s.events, ¬ (e.type = s.custom_event_type_ ∨ e.type = c.SDL_EVENT_QUIT)) :
    drain c s =
      (false, { s with events := [], polled := s.polled ++ s.events,
                       destroyed := s.destroyed ++
                         (s.events.filter (fun e =>
                           decide (e.type = c.SDL_EVENT_WINDOW_CLOSE_REQUESTED))).map
                             SDL_Event.windowID }) ∧
    (drain c s).2.events = [] ∧
    (drain c s).2.polled = s.polled ++ s.events ∧
    (drain c s).2.quitCalls = s.quitCalls ∧
    (drain c s).2.running_ = s.running_ ∧
    (drain c s).2.stopped = s.stopped := by
  have h1 : drain c s = _ := pollLoop_no_stop c s.events s h
  rw [h1]
  exact ⟨rfl, rfl, rfl, rfl, rfl, rfl⟩

theorem drain_without_stop_event_witness :
    drain sdl3 (pumping [evClose 4, evMotion, evClose 2, evClose 4]) =
      (false, { pumping [] with
        polled := [evClose 4, evMotion, evClose 2, evClose 4],
        destroyed := [4, 2, 4] }) :=
  (drain_without_stop_event sdl3 (pumping [evClose 4, evMotion, evClose 2, evClose 4])
    (by decide)).1

/-! ## The claims on `initialize` -/

/-- C4: in the init closure both coroutines are spawned exactly when
`SDL_InitSubSystem` returned `true`; then `sdl_initialized_` is set, the
custom event type is the registered one and `running_` is left as it was.
When it returned `false`, `sdl_initialized_` and `running_` are cleared and
nothing is spawned.  Hence after the closure either the subsystem is
initialised with both coroutines spawned, or `running_` is `false`. -/
theorem initClosure_spawns_iff_init_ok (s : SdlMain α) :
    (s.initResult = true →
      initClosure s =
        { s with sdl_initialized_ := true, custom_event_type_ := s.registerResult,
                 spawned := s.spawned ++ [Coroutine.sdlEventLoop, Coroutine.periodicTask] }) ∧
    (s.initResult = false →
      initClosure s = { s with sdl_initialized_ := false, running_ := false }) ∧
    ((initClosure s).spawned = s.spawned ++ [Coroutine.sdlEventLoop, Coroutine.periodicTask] ↔
      s.initResult = true) ∧
    ((initClosure s).spawned = s.spawned ↔ s.initResult = false) ∧
    (s.initResult = true →
      (initClosure s).sdl_initialized_ = true ∧
      (initClosure s).custom_event_type_ = s.registerResult ∧
      (initClosure s).running_ = s.running_) ∧
    (s.initResult = false →
      (initClosure s).sdl_initialized_ = false ∧ (initClosure s).running_ = false) ∧
    (((initClosure s).sdl_initialized_ = true ∧
        (initClosure s).spawned =
          s.spawned ++ [Coroutine.sdlEventLoop, Coroutine.periodicTask]) ∨
      (initClosure s).running_ = false) := by
  cases h : s.initResult <;> simp [initClosure, h]

theorem initClosure_spawns_iff_init_ok_witness :
    initClosure (fresh Nat true 0x8000) =
      { fresh Nat true 0x8000 with
        sdl_initialized_ := true, custom_event_type_ := 0x8000,
        spawned := [Coroutine.sdlEventLoop, Coroutine.periodicTask] } ∧
    initClosure ({ fresh Nat false 0 with running_ := true } : SdlMain Nat) =
      { fresh Nat false 0 with sdl_initialized_ := false, running_ := false } :=
  ⟨(initClosure_spawns_iff_init_ok (fresh Nat true 0x8000)).1 rfl,
   (initClosure_spawns_iff_init_ok
      ({ fresh Nat false 0 with running_ := true } : SdlMain Nat)).2.1 rfl⟩

/-- C6: the caller's step after `wait_for` writes `running_ := false` when the
wait ended with the predicate `sdl_initialized_ || !running_` false and writes
nothing when it ended with the predicate true; it never writes
`sdl_initialized_`.  After `initialize()` has returned, `running_` is `false`
whenever the wait timed out and whenever `sdl_initialized_` is `false` (the
subsystem failed to initialise or the wait timed out). -/
theorem initialize_gate_writes_only_on_timeout (interp : α → SdlMain α → SdlMain α)
    (workerTurns : Nat) (s : SdlMain α) :
    (initPredicate s = false → gateStep s = { s with running_ := false }) ∧
    (initPredicate s = true → gateStep s = s) ∧
    (gateStep s).sdl_initialized_ = s.sdl_initialized_ ∧
    initialize_ interp workerTurns s =
      gateStep (ioRun interp workerTurns
        { s with running_ := true, ready := s.ready ++ [Handler.initClosure] }) ∧
    (initPredicate (ioRun interp workerTurns
        { s with running_ := true, ready := s.ready ++ [Handler.initClosure] }) = false →
      (initialize_ interp workerTurns s).running_ = false) ∧
    ((initialize_ interp workerTurns s).sdl_initialized_ = false →
      (initialize_ interp workerTurns s).running_ = false) := by
  have hg : ∀ u : SdlMain α, (initPredicate u = false → gateStep u = { u with running_ := false }) ∧
      (initPredicate u = true → gateStep u = u) ∧
      (gateStep u).sdl_initialized_ = u.sdl_initialized_ ∧
      (initPredicate u = false → (gateStep u).running_ = false) ∧
      ((gateStep u).sdl_initialized_ = false → (gateStep u).running_ = false) := by
    intro u
    cases h1 : u.sdl_initialized_ <;> cases h2 : u.running_ <;>
      simp [gateStep, initPredicate, h1, h2]
  refine ⟨(hg s).1, (hg s).2.1, (hg s).2.2.1, rfl, ?_, ?_⟩
  · exact (hg _).2.2.2.1
  · exact (hg _).2.2.2.2

theorem initialize_gate_writes_only_on_timeout_witness :
    initialize_ (mainClosure (fun _ => true)) 0 (fresh Nat true 0x8000) =
      { fresh Nat true 0x8000 with running_ := false, ready := [Handler.initClosure] } ∧
    (initialize_ (mainClosure (fun _ => true)) 1 (fresh Nat false 0)).running_ = false :=
  ⟨rfl,
   (initialize_gate_writes_only_on_timeout (mainClosure (fun _ => true)) 1
      (fresh Nat false 0)).2.2.2.2.2 rfl⟩

/-! ## The executor after a failed initialisation -/

theorem ioRun_ready_nil (interp : α → SdlMain α → SdlMain α) (n : Nat) (s : SdlMain α)
    (h : s.ready = []) : ioRun interp n s = s := by
  induction n with
  | zero => rfl
  | succ k ih =>
    have h1 : ioRunOne interp s = s := by
      unfold ioRunOne
      split
      · rfl
      · rw [h]
    rw [ioRun, h1, ih]

theorem initialize_failed (interp : α → SdlMain α → SdlMain α) (n : Nat) (s : SdlMain α)
    (hinit : s.initResult = false) (hstop : s.stopped = false) (hready : s.ready = [])
    (hn : 0 < n) :
    initialize_ interp n s = { s with running_ := false, sdl_initialized_ := false } := by
  obtain ⟨k, rfl⟩ : ∃ k, n = k + 1 := ⟨n - 1, by omega⟩
  have h1 : ioRunOne interp
      { s with running_ := true, ready := s.ready ++ [Handler.initClosure] } =
      { s with running_ := false, sdl_initialized_ := false } := by
    simp [ioRunOne, hstop, hready, runHandler, initClosure, hinit]
  unfold initialize_
  simp only [ioRun]
  rw [h1, ioRun_ready_nil interp k _ (by exact hready)]
  simp [gateStep, initPredicate]

theorem runHandler_public (interp : α → SdlMain α → SdlMain α) (hpub : PublicOnly interp)
    (h : Handler α) (u : SdlMain α) :
    (runHandler interp h u).stopped = u.stopped ∧
    (runHandler interp h u).executed = u.executed ++ handlerTasks [h] ∧
    ∃ extra, (runHandler interp h u).ready = u.ready ++ extra := by
  cases h with
  | initClosure =>
    refine ⟨?_, ?_, [], ?_⟩ <;> cases hi : u.initResult <;>
      simp [runHandler, initClosure, hi, handlerTasks]
  | task cl =>
    cases cl with
    | pushCustomEvent junk =>
      exact ⟨rfl, rfl, [], by simp [runHandler, runClosure]⟩
    | user a =>
      obtain ⟨h1, h2, extra, h3⟩ :=
        hpub a { u with executed := u.executed ++ [Closure.user a] }
      exact ⟨h1, h2, extra, h3⟩

theorem handlerTasks_append (hs gs : List (Handler α)) :
    handlerTasks (hs ++ gs) = handlerTasks hs ++ handlerTasks gs := by
  induction hs with
  | nil => rfl
  | cons h rest ih => cases h <;> simp [handlerTasks, ih]

theorem handlerTasks_map_task (ts : List (Closure α)) :
    handlerTasks (ts.map Handler.task) = ts := by
  induction ts with
  | nil => rfl
  | cons t rest ih => simp [handlerTasks, ih]

/-- The worker works the queue off in order: after as many turns as there are
handlers `hs` at the head of the queue, the `task()` call of every closure
among them has been made, and the executor is still not stopped. -/
theorem ioRun_queue (interp : α → SdlMain α → SdlMain α) (hpub : PublicOnly interp)
    (hs extra : List (Handler α)) (u : SdlMain α)
    (hstop : u.stopped = false) (hready : u.ready = hs ++ extra) :
    (ioRun interp hs.length u).stopped = false ∧
    (ioRun interp hs.length u).executed = u.executed ++ handlerTasks hs ∧
    ∃ more, (ioRun interp hs.length u).ready = extra ++ more := by
  induction hs generalizing u extra with
  | nil => exact ⟨hstop, by simp [ioRun, handlerTasks], [], by simpa [ioRun] using hready⟩
  | cons h rest ih =>
    have h1 : ioRunOne interp u = runHandler interp h { u with ready := rest ++ extra } := by
      simp [ioRunOne, hstop, hready]
    obtain ⟨p1, p2, e1, p3⟩ := runHandler_public interp hpub h { u with ready := rest ++ extra }
    have q := ih (extra ++ e1) (ioRunOne interp u) (by rw [h1, p1]; exact hstop)
      (by rw [h1, p3]; simp)
    obtain ⟨q1, q2, e2, q3⟩ := q
    refine ⟨q1, ?_, e1 ++ e2, ?_⟩
    · simp only [List.length_cons, ioRun]
      rw [q2, h1, p2]
      have : handlerTasks (h :: rest) = handlerTasks [h] ++ handlerTasks rest :=
        handlerTasks_append [h] rest
      rw [this]
      simp
    · simp only [List.length_cons, ioRun]
      rw [q3]
      simp

theorem scheduleAll_ready (ts : List (Closure α)) (s : SdlMain α) :
    scheduleAll ts s = { s with ready := s.ready ++ ts.map Handler.task } := by
  induction ts generalizing s with
  | nil => simp [scheduleAll]
  | cons t rest ih =>
    have h : scheduleAll (t :: rest) s = scheduleAll rest (scheduleTask t s) := rfl
    rw [h, ih]
    simp [scheduleTask]

theorem mainClosure_public (createOk : Nat → Bool) : PublicOnly (mainClosure createOk) := by
  intro a u
  cases h : createOk a
  · exact ⟨by simp [mainClosure, h, quit, scheduleTask],
      by simp [mainClosure, h, quit, scheduleTask],
      [Handler.task (Closure.pushCustomEvent 0)],
      by simp [mainClosure, h, quit, scheduleTask]⟩
  · exact ⟨by simp [mainClosure, h], by simp [mainClosure, h], [],
      by simp [mainClosure, h]⟩

/-- C5 (as the code has it): when `SDL_InitSubSystem` fails, `initialize()`
returns with `running_ = false`, nothing spawned and the executor not stopped.
`scheduleTask` reads neither `running_` nor the queue: in every state it
appends the closure to the handler queue.  So every closure of any list `ts`
submitted afterwards is queued, in order, and the worker's next turns make
the `task()` call of each of them; and a closure submitted in any state whose
executor is not stopped has its `task()` call made once the handlers queued
before it have run. -/
theorem scheduleTask_after_failed_init_runs (interp : α → SdlMain α → SdlMain α)
    (hpub : PublicOnly interp) (n : Nat) (s : SdlMain α) (ts : List (Closure α))
    (hinit : s.initResult = false) (hstop : s.stopped = false) (hready : s.ready = [])
    (hn : 0 < n) :
    (initialize_ interp n s).running_ = false ∧
    (initialize_ interp n s).sdl_initialized_ = false ∧
    (initialize_ interp n s).spawned = s.spawned ∧
    (initialize_ interp n s).stopped = false ∧
    (∀ (t : Closure α) (u : SdlMain α),
      scheduleTask t u = { u with ready := u.ready ++ [Handler.task t] }) ∧
    scheduleAll ts (initialize_ interp n s) =
      { s with running_ := false, sdl_initialized_ := false,
               ready := ts.map Handler.task } ∧
    (ioRun interp ts.length (scheduleAll ts (initialize_ interp n s))).executed =
      s.executed ++ ts ∧
    (∀ t ∈ ts,
      t ∈ (ioRun interp ts.length (scheduleAll ts (initialize_ interp n s))).executed) ∧
    (∀ (t : Closure α) (u : SdlMain α), u.stopped = false →
      (ioRun interp (u.ready.length + 1) (scheduleTask t u)).executed =
        u.executed ++ handlerTasks u.ready ++ [t]) := by
  have hall : scheduleAll ts (initialize_ interp n s) =
      { s with running_ := false, sdl_initialized_ := false,
               ready := ts.map Handler.task } := by
    rw [initialize_failed interp n s hinit hstop hready hn, scheduleAll_ready]
    simp [hready]
  have hexec : (ioRun interp ts.length (scheduleAll ts (initialize_ interp n s))).executed =
      s.executed ++ ts := by
    have h := ioRun_queue interp hpub (ts.map Handler.task) []
      (scheduleAll ts (initialize_ interp n s)) (by rw [hall]; exact hstop)
      (by rw [hall]; simp)
    rw [List.length_map] at h
    rw [h.2.1, handlerTasks_map_task, hall]
  rw [initialize_failed interp n s hinit hstop hready hn] at *
  refine ⟨rfl, rfl, rfl, hstop, fun _ _ => rfl, hall, hexec, ?_, ?_⟩
  · intro t ht
    rw [hexec]
    exact List.mem_append_right _ ht
  · intro t u hu
    have h := ioRun_queue interp hpub (u.ready ++ [Handler.task t]) []
      (scheduleTask t u) hu (by simp [scheduleTask])
    rw [List.length_append, List.length_singleton] at h
    rw [h.2.1, handlerTasks_append]
    simp [scheduleTask, handlerTasks, List.append_assoc]

theorem scheduleTask_after_failed_init_runs_witness :
    (initialize_ (mainClosure (fun _ => false)) 1 (fresh Nat false 0)).running_ = false ∧
    (ioRun (mainClosure (fun _ => false)) 3
      (scheduleAll [Closure.user 0, Closure.user 1, Closure.user 2]
        (initialize_ (mainClosure (fun _ => false)) 1 (fresh Nat false 0)))).executed =
      [Closure.user 0, Closure.user 1, Closure.user 2] :=
  have h := scheduleTask_after_failed_init_runs (mainClosure (fun _ => false))
    (mainClosure_public (fun _ => false)) 1 (fresh Nat false 0)
    [Closure.user 0, Closure.user 1, Closure.user 2] rfl rfl rfl (by decide)
  ⟨h.1, h.2.2.2.2.2.2.1⟩

/-- C5 (counterexample): `main` with `SDL_InitSubSystem` failing and every
`SDL_CreateWindow` failing.  `initialize()` has returned with
`running_ = false`, the three closures are queued, and the worker's next three
turns make the `task()` call of all three. -/
theorem main_closures_run_after_failed_init :
    (main (fun _ => false) 1 (fresh Nat false 0)).running_ = false ∧
    (main (fun _ => false) 1 (fresh Nat false 0)).sdl_initialized_ = false ∧
    (main (fun _ => false) 1 (fresh Nat false 0)).executed = [] ∧
    (ioRun (mainClosure (fun _ => false)) 3
      (main (fun _ => false) 1 (fresh Nat false 0))).executed =
      [Closure.user 0, Closure.user 1, Closure.user 2] :=
  ⟨rfl, rfl, rfl, rfl⟩

/-! ## The claim on `quit` -/

/-- C8: in every state, `quit()` leaves `running_`, `sdl_initialized_`,
`custom_event_type_`, the stop request and the event queue as they are; all it
does is append, as `scheduleTask` does, one closure to the handler queue.
Run in any state `u`, that closure appends to the event queue one event whose
type is `custom_event_type_` and leaves `running_` and the stop request as
they are.  The worker makes the closure's `task()` call once the handlers
queued before it have run.  `running_` is cleared when `sdlEventLoop`, entered
with `running_ = true`, polls that event. -/
theorem quit_only_queues_custom_event (interp : α → SdlMain α → SdlMain α)
    (c : SdlConsts) (junk : Nat) (arrivals : List (List SDL_Event)) (s u : SdlMain α) :
    quit junk s =
      { s with ready := s.ready ++ [Handler.task (Closure.pushCustomEvent junk)] } ∧
    quit junk s = scheduleTask (Closure.pushCustomEvent junk) s ∧
    (quit junk s).running_ = s.running_ ∧
    (quit junk s).sdl_initialized_ = s.sdl_initialized_ ∧
    (quit junk s).custom_event_type_ = s.custom_event_type_ ∧
    (quit junk s).stopped = s.stopped ∧
    (quit junk s).events = s.events ∧
    runHandler interp (Handler.task (Closure.pushCustomEvent junk)) u =
      { u with executed := u.executed ++ [Closure.pushCustomEvent junk],
               events := u.events ++ [{ type := u.custom_event_type_, windowID := junk }] } ∧
    (runHandler interp (Handler.task (Closure.pushCustomEvent junk)) u).running_ =
      u.running_ ∧
    (runHandler interp (Handler.task (Closure.pushCustomEvent junk)) u).stopped =
      u.stopped ∧
    (s.stopped = false → ∀ h rest, s.ready = h :: rest →
      ioRunOne interp (quit junk s) =
        runHandler interp h
          { s with ready := rest ++ [Handler.task (Closure.pushCustomEvent junk)] }) ∧
    (s.stopped = false → s.ready = [] →
      ioRunOne interp (quit junk s) =
        { s with executed := s.executed ++ [Closure.pushCustomEvent junk],
                 events := s.events ++
                   [{ type := s.custom_event_type_, windowID := junk }] }) ∧
    (PublicOnly interp → s.stopped = false →
      (ioRun interp (s.ready.length + 1) (quit junk s)).executed =
        s.executed ++ handlerTasks s.ready ++ [Closure.pushCustomEvent junk]) ∧
    (∀ pre post : List SDL_Event, u.running_ = true →
      u.events = pre ++ { type := u.custom_event_type_, windowID := junk } :: post →
      (∀ x ∈ pre, ¬ (x.type = u.custom_event_type_ ∨ x.type = c.SDL_EVENT_QUIT)) →
      sdlEventLoop c arrivals u =
        Pump.returned
          { u with events := post,
                   polled := u.polled ++
                     (pre ++ [{ type := u.custom_event_type_, windowID := junk }]),
                   destroyed := u.destroyed ++
                     (pre.filter (fun x =>
                       decide (x.type = c.SDL_EVENT_WINDOW_CLOSE_REQUESTED))).map
                         SDL_Event.windowID,
                   running_ := false, stopped := true }) ∧
    (s.running_ = true → s.stopped = false → s.ready = [] →
      (∀ e ∈ s.events, ¬ (e.type = s.custom_event_type_ ∨ e.type = c.SDL_EVENT_QUIT)) →
      (ioRunOne interp (quit junk s)).running_ = true ∧
      sdlEventLoop c arrivals (ioRunOne interp (quit junk s)) =
        Pump.returned
          { s with executed := s.executed ++ [Closure.pushCustomEvent junk],
                   events := [],
                   polled := s.polled ++
                     (s.events ++ [{ type := s.custom_event_type_, windowID := junk }]),
                   destroyed := s.destroyed ++
                     (s.events.filter (fun x =>
                       decide (x.type = c.SDL_EVENT_WINDOW_CLOSE_REQUESTED))).map
                         SDL_Event.windowID,
                   running_ := false, stopped := true }) := by
  have hidle : s.stopped = false → s.ready = [] →
      ioRunOne interp (quit junk s) =
        { s with executed := s.executed ++ [Closure.pushCustomEvent junk],
                 events := s.events ++
                   [{ type := s.custom_event_type_, windowID := junk }] } := by
    intro hstop hready
    simp [ioRunOne, quit, scheduleTask, hstop, hready, runHandler, runClosure]
  have hpump : ∀ (v : SdlMain α) (pre post : List SDL_Event), v.running_ = true →
      v.events = pre ++ { type := v.custom_event_type_, windowID := junk } :: post →
      (∀ x ∈ pre, ¬ (x.type = v.custom_event_type_ ∨ x.type = c.SDL_EVENT_QUIT)) →
      sdlEventLoop c arrivals v =
        Pump.returned
          { v with events := post,
                   polled := v.polled ++
                     (pre ++ [{ type := v.custom_event_type_, windowID := junk }]),
                   destroyed := v.destroyed ++ closeIds c pre,
                   running_ := false, stopped := true } := by
    intro v pre post hrun hev hpre
    have h := sdlEventLoop_stop c [] pre post
      { type := v.custom_event_type_, windowID := junk } arrivals arrivals v hrun
      (by rw [hev]; rfl) (by simp) hpre (Or.inl rfl)
    rw [h]
    simp
  refine ⟨rfl, rfl, rfl, rfl, rfl, rfl, rfl, rfl, rfl, rfl, ?_, hidle, ?_, ?_, ?_⟩
  · intro hstop h rest hready
    simp [ioRunOne, quit, scheduleTask, hstop, hready]
  · intro hpub hstop
    have h := ioRun_queue interp hpub
      (s.ready ++ [Handler.task (Closure.pushCustomEvent junk)]) [] (quit junk s) hstop
      (by simp [quit, scheduleTask])
    rw [List.length_append, List.length_singleton] at h
    rw [h.2.1, handlerTasks_append]
    simp [quit, scheduleTask, handlerTasks, List.append_assoc]
  · intro pre post hrun hev hpre
    exact hpump u pre post hrun hev hpre
  · intro hrun hstop hready hev
    rw [hidle hstop hready]
    refine ⟨hrun, ?_⟩
    exact hpump
      { s with executed := s.executed ++ [Closure.pushCustomEvent junk],
               events := s.events ++
                 [{ type := s.custom_event_type_, windowID := junk }] }
      s.events [] hrun rfl hev

theorem quit_only_queues_custom_event_witness :
    (quit 0 (scheduleAll [Closure.user 1, Closure.user 2]
      (fresh Nat false 0))).running_ = false ∧
    (quit 0 (scheduleAll [Closure.user 1, Closure.user 2] (fresh Nat false 0))).ready =
      [Handler.task (Closure.user 1), Handler.task (Closure.user 2),
       Handler.task (Closure.pushCustomEvent 0)] ∧
    (ioRunOne (mainClosure (fun _ => true)) (quit 9 (pumping [evClose 1]))).events =
      [evClose 1, { type := 0x8000, windowID := 9 }] ∧
    (sdlEventLoop sdl3 []
      (ioRunOne (mainClosure (fun _ => true)) (quit 9 (pumping [evClose 1])))).state.running_ =
      false :=
  have h0 := quit_only_queues_custom_event (mainClosure (fun _ => true)) sdl3 0 []
    (scheduleAll [Closure.user 1, Closure.user 2] (fresh Nat false 0)) (fresh Nat false 0)
  have h := quit_only_queues_custom_event (mainClosure (fun _ => true)) sdl3 9 []
    (pumping [evClose 1]) (pumping [evClose 1])
  ⟨h0.2.2.1, by rw [h0.1]; rfl,
   by rw [h.2.2.2.2.2.2.2.2.2.2.2.1 rfl rfl]; rfl,
   by rw [(h.2.2.2.2.2.2.2.2.2.2.2.2.2.2 rfl rfl rfl (by decide)).2]; rfl⟩

/-! ## The claim on `periodicTask` -/

theorem periodicTask_resume_running (handledAt : Nat) (p : PeriodicTask)
    (hl : p.live = true) :
    periodicTask_resume handledAt true p =
      { expiry := p.expiry + seconds 2, prints := p.prints + 1, live := true } := by
  simp [periodicTask_resume, hl]

theorem periodicTask_fold_running (fires : List (Nat × Bool)) (p : PeriodicTask)
    (hl : p.live = true) (h : ∀ f ∈ fires, f.2 = true) :
    fires.foldl (fun q f => periodicTask_resume f.1 f.2 q) p =
      { expiry := p.expiry + fires.length * seconds 2,
        prints := p.prints + fires.length, live := true } := by
  induction fires generalizing p with
  | nil =>
    cases p
    simp_all
  | cons f rest ih =>
    have hf : f.2 = true := h f (List.mem_cons_self _ _)
    have hr : ∀ g ∈ rest, g.2 = true := fun g hg => h g (List.mem_cons_of_mem _ hg)
    rw [List.foldl_cons, hf, periodicTask_resume_running f.1 p hl, ih _ rfl hr]
    simp only [List.length_cons, PeriodicTask.mk.injEq, and_true]
    constructor
    · rw [Nat.add_mul, Nat.one_mul]; omega
    · omega

theorem periodicTask_running (start : Nat) (fires : List (Nat × Bool))
    (h : ∀ f ∈ fires, f.2 = true) :
    periodicTask start true fires =
      { expiry := start + seconds 2 + fires.length * seconds 2,
        prints := fires.length, live := true } := by
  unfold periodicTask
  rw [periodicTask_fold_running fires _ rfl h]
  simp [periodicTask_begin]

/-- C7: with `running_` reading `true` at every fire, the timer deadline after
the `k`-th fire is `d0 + k * 2 s`, where `d0 = start + 2 s` is the deadline set
at line 131: each fire moves the deadline by exactly `2 s`, the deadlines
increase strictly, and they do not depend on when the fires are handled. -/
theorem periodicTask_rearms_additively (start : Nat) (fires : List (Nat × Bool))
    (h : ∀ f ∈ fires, f.2 = true) :
    (periodicTask start true []).expiry = start + seconds 2 ∧
    (∀ k, k ≤ fires.length →
      (periodicTask start true (fires.take k)).expiry = start + seconds 2 + k * seconds 2) ∧
    (∀ k, k < fires.length →
      (periodicTask start true (fires.take (k + 1))).expiry =
        (periodicTask start true (fires.take k)).expiry + seconds 2 ∧
      (periodicTask start true (fires.take k)).expiry <
        (periodicTask start true (fires.take (k + 1))).expiry) ∧
    (∀ fires2 : List (Nat × Bool), fires2.length = fires.length →
      (∀ f ∈ fires2, f.2 = true) →
      (periodicTask start true fires2).expiry = (periodicTask start true fires).expiry) ∧
    (periodicTask start true fires).live = true := by
  have htake : ∀ k, k ≤ fires.length →
      (periodicTask start true (fires.take k)).expiry = start + seconds 2 + k * seconds 2 := by
    intro k hk
    rw [periodicTask_running start (fires.take k)
      (fun f hf => h f (List.mem_of_mem_take hf))]
    simp [List.length_take, Nat.min_eq_left hk]
  refine ⟨rfl, htake, ?_, ?_, ?_⟩
  · intro k hk
    rw [htake (k + 1) hk, htake k (Nat.le_of_lt hk)]
    have hs : 0 < seconds 2 := by decide
    constructor
    · rw [Nat.add_mul, Nat.one_mul]; omega
    · rw [Nat.add_mul, Nat.one_mul]; omega
  · intro fires2 hlen h2
    rw [periodicTask_running start fires2 h2, periodicTask_running start fires h, hlen]
  · rw [periodicTask_running start fires h]

theorem periodicTask_rearms_additively_witness :
    (periodicTask 5000000000 true
      [(7000000123, true), (13999999999, true), (14000000001, true)]).expiry =
      seconds 5 + seconds 2 + 3 * seconds 2 :=
  (periodicTask_rearms_additively 5000000000
    [(7000000123, true), (13999999999, true), (14000000001, true)] (by decide)).2.1 3
    (by decide)

end SdlMainModel
